import Mathlib

/-!
Shallow embedding of the Sprite-Slicer grid-geometry and tile-extraction
engine (src/grid.ts and src/slicer.ts), together with theorems checking the
specification's claims about it.  JavaScript numbers are modelled as `Int`
(all arithmetic on the verified paths is integer-valued), `Math.floor(a / b)`
as `Int.fdiv`, and a canvas / ImageData as its dimensions plus a pixel lookup
function.
-/

/-- RGBA pixel with channel values 0..255 as stored in a canvas ImageData
array. -/
structure Pixel where
  r : Nat
  g : Nat
  b : Nat
  a : Nat
deriving DecidableEq

/-- Fully transparent black, the initial content of a freshly created
canvas. -/
def transparent : Pixel := ⟨0, 0, 0, 0⟩

/-- An in-memory raster: dimensions plus a pixel lookup function (the shallow
embedding of an HTMLCanvasElement / ImageData pixel array; the code only ever
reads pixels inside the stated bounds). -/
structure Canvas where
  width : Int
  height : Int
  pixel : Int → Int → Pixel

/-- TileSettings from src/types.d.ts. -/
structure TileSettings where
  tileWidth : Int
  tileHeight : Int
  margin : Int
  spacing : Int
  offsetX : Int
  offsetY : Int
  trimTransparent : Bool
  preservePadding : Int
deriving DecidableEq

/-- ImageMetadata from src/types.d.ts. -/
structure ImageMetadata where
  width : Int
  height : Int
  hasAlpha : Bool
deriving DecidableEq

/-- GridInfo from src/types.d.ts. -/
structure GridInfo where
  rows : Int
  cols : Int
  totalTiles : Int
deriving DecidableEq

/-- The Partial TileSettings record returned by auto-detection (the six
geometric fields that autoDetectTileSize fills in). -/
structure DetectedSettings where
  tileWidth : Int
  tileHeight : Int
  margin : Int
  spacing : Int
  offsetX : Int
  offsetY : Int
deriving DecidableEq

/-- TileData from src/types.d.ts. -/
structure TileData where
  canvas : Canvas
  row : Int
  col : Int
  index : Int
  isEmpty : Bool

/-- Result of trimTransparentEdges. -/
structure TrimResult where
  canvas : Canvas
  isEmpty : Bool

/-- GridCalculator.calculateGrid from src/grid.ts. -/
def calculateGrid (settings : TileSettings) (imageMetadata : ImageMetadata) : GridInfo :=
  let availableWidth := imageMetadata.width - settings.margin * 2 - settings.offsetX
  let availableHeight := imageMetadata.height - settings.margin * 2 - settings.offsetY
  let cols := Int.fdiv (availableWidth + settings.spacing) (settings.tileWidth + settings.spacing)
  let rows := Int.fdiv (availableHeight + settings.spacing) (settings.tileHeight + settings.spacing)
  { rows := max 0 rows, cols := max 0 cols, totalTiles := max 0 (rows * cols) }

/-- GridCalculator.validateSettings from src/grid.ts. -/
def validateSettings (settings : TileSettings) (imageMetadata : ImageMetadata) : List String :=
  let minRequiredWidth := settings.margin * 2 + settings.offsetX + settings.tileWidth
  let minRequiredHeight := settings.margin * 2 + settings.offsetY + settings.tileHeight
  (if settings.tileWidth ≤ 0 then ["Tile width must be greater than 0"] else []) ++
  (if settings.tileHeight ≤ 0 then ["Tile height must be greater than 0"] else []) ++
  (if settings.margin < 0 then ["Margin cannot be negative"] else []) ++
  (if settings.spacing < 0 then ["Spacing cannot be negative"] else []) ++
  (if settings.offsetX < 0 then ["Offset X cannot be negative"] else []) ++
  (if settings.offsetY < 0 then ["Offset Y cannot be negative"] else []) ++
  (if imageMetadata.width < minRequiredWidth then
    ["Image width (" ++ toString imageMetadata.width ++
      "px) is too small for current settings (requires at least " ++
      toString minRequiredWidth ++ "px)"]
  else []) ++
  (if imageMetadata.height < minRequiredHeight then
    ["Image height (" ++ toString imageMetadata.height ++
      "px) is too small for current settings (requires at least " ++
      toString minRequiredHeight ++ "px)"]
  else [])

/-- Sample coordinates of a loop `for (v = 0; v < limit; v += 10)`. -/
def sampleCoords (limit : Int) : List Int :=
  (List.range ((limit.toNat + 9) / 10)).map (fun k => ((10 * k : Nat) : Int))

/-- Whether the vertical line at abscissa x is "consistent": every pixel
sampled along it at stride 10 has alpha at most 128 (src/grid.ts,
tryDetectGrid vertical-line loop). -/
def lineConsistentV (img : Canvas) (x : Int) : Bool :=
  (sampleCoords img.height).all (fun y => decide ((img.pixel x y).a ≤ 128))

/-- Whether the horizontal line at ordinate y is "consistent" (src/grid.ts,
tryDetectGrid horizontal-line loop). -/
def lineConsistentH (img : Canvas) (y : Int) : Bool :=
  (sampleCoords img.width).all (fun x => decide ((img.pixel x y).a ≤ 128))

/-- The indices of a loop `for (v = 1; v < n; v++)`: the internal grid-line
indices 1 .. n-1. -/
def internalLines (n : Int) : List Int :=
  (List.range (n.toNat - 1)).map (fun i => ((i + 1 : Nat) : Int))

/-- The consistentVertical counter of tryDetectGrid. -/
def countConsistentVertical (img : Canvas) (tileWidth cols : Int) : Int :=
  (internalLines cols).foldl
    (fun acc col =>
      let x := col * tileWidth
      if x < img.width then
        if lineConsistentV img x then acc + 1 else acc
      else acc)
    0

/-- The consistentHorizontal counter of tryDetectGrid. -/
def countConsistentHorizontal (img : Canvas) (tileHeight rows : Int) : Int :=
  (internalLines rows).foldl
    (fun acc row =>
      let y := row * tileHeight
      if y < img.height then
        if lineConsistentH img y then acc + 1 else acc
      else acc)
    0

/-- GridCalculator.tryDetectGrid from src/grid.ts.  The JavaScript
comparisons `consistentVertical >= cols * 0.7` are embedded exactly as
`7 * cols ≤ 10 * consistentVertical`. -/
def tryDetectGrid (img : Canvas) (tileWidth tileHeight : Int) : Option DetectedSettings :=
  let cols := Int.fdiv img.width tileWidth
  let rows := Int.fdiv img.height tileHeight
  if cols < 2 ∨ rows < 2 then none
  else
    let consistentVertical := countConsistentVertical img tileWidth cols
    let consistentHorizontal := countConsistentHorizontal img tileHeight rows
    if 7 * cols ≤ 10 * consistentVertical ∧ 7 * rows ≤ 10 * consistentHorizontal then
      some ⟨tileWidth, tileHeight, 0, 0, 0, 0⟩
    else none

/-- The candidate square tile sizes tried by autoDetectTileSize. -/
def commonSizes : List Int := [16, 24, 32, 48, 64, 96, 128]

/-- GridCalculator.autoDetectTileSize from src/grid.ts (the canvas set-up is
the identity in this model; the loop returns the first successful
candidate). -/
def autoDetectTileSize (img : Canvas) : Option DetectedSettings :=
  commonSizes.findSome? (fun size => tryDetectGrid img size size)

/-- Acceptance test exactly as claim C2 words it: at least 70 percent of the
internal vertical lines (there are cols - 1 of them) and at least 70 percent
of the internal horizontal lines must be consistent.  Written from the
spec's words, to be compared with tryDetectGrid. -/
def claimTryDetect (img : Canvas) (size : Int) : Option DetectedSettings :=
  let cols := Int.fdiv img.width size
  let rows := Int.fdiv img.height size
  if cols < 2 ∨ rows < 2 then none
  else
    let cv := ((internalLines cols).filter (fun col => lineConsistentV img (col * size))).length
    let ch := ((internalLines rows).filter (fun row => lineConsistentH img (row * size))).length
    if 7 * (cols - 1) ≤ 10 * (cv : Int) ∧ 7 * (rows - 1) ≤ 10 * (ch : Int) then
      some ⟨size, size, 0, 0, 0, 0⟩
    else none

/-- Auto-detection as claim C2 words it: first accepted candidate in
ascending order wins. -/
def claimAutoDetect (img : Canvas) : Option DetectedSettings :=
  commonSizes.findSome? (fun size => claimTryDetect img size)

/-- Auto-detection acceptance as amended: the thresholds are 70 percent of
cols and of rows (the divisors the code actually uses), not of the internal
line counts cols - 1 and rows - 1; otherwise as the claim words it. -/
def amendedTryDetect (img : Canvas) (size : Int) : Option DetectedSettings :=
  let cols := Int.fdiv img.width size
  let rows := Int.fdiv img.height size
  if cols < 2 ∨ rows < 2 then none
  else
    let cv := ((internalLines cols).filter (fun col => lineConsistentV img (col * size))).length
    let ch := ((internalLines rows).filter (fun row => lineConsistentH img (row * size))).length
    if 7 * cols ≤ 10 * (cv : Int) ∧ 7 * rows ≤ 10 * (ch : Int) then
      some ⟨size, size, 0, 0, 0, 0⟩
    else none

/-- Amended auto-detection: first accepted candidate in ascending order. -/
def amendedAutoDetect (img : Canvas) : Option DetectedSettings :=
  commonSizes.findSome? (fun size => amendedTryDetect img size)

/-- Result of `ctx.drawImage(src, sx, sy, w, h, 0, 0, w, h)` on a fresh
w-by-h canvas: inside the destination bounds the source rectangle's pixels,
outside them the fresh canvas's transparent initial content. -/
def drawImageRect (src : Canvas) (sx sy w h : Int) : Canvas :=
  { width := w
    height := h
    pixel := fun x y =>
      if 0 ≤ x ∧ x < w ∧ 0 ≤ y ∧ y < h then src.pixel (sx + x) (sy + y) else transparent }

/-- The tile-canvas construction inside SpriteSlicer.extractTile
(src/slicer.ts): source rectangle origin and size, copied into a fresh
tileWidth-by-tileHeight canvas. -/
def extractTileCanvas (image : Canvas) (settings : TileSettings) (row col : Int) : Canvas :=
  let sourceX := settings.margin + settings.offsetX + col * (settings.tileWidth + settings.spacing)
  let sourceY := settings.margin + settings.offsetY + row * (settings.tileHeight + settings.spacing)
  drawImageRect image sourceX sourceY settings.tileWidth settings.tileHeight

/-- The row-major list of in-bounds pixel coordinates of a canvas, in the
order the nested scan loops of src/slicer.ts visit them (y outer, x
inner). -/
def canvasPositions (c : Canvas) : List (Int × Int) :=
  (List.range c.height.toNat).flatMap
    (fun (yn : Nat) => (List.range c.width.toNat).map (fun (xn : Nat) => ((xn : Int), (yn : Int))))

/-- SpriteSlicer.isCanvasEmpty from src/slicer.ts: every alpha byte is 0. -/
def isCanvasEmpty (c : Canvas) : Bool :=
  (canvasPositions c).all (fun p => decide ((c.pixel p.1 p.2).a = 0))

/-- Bounding-box accumulator of trimTransparentEdges. -/
structure BBox where
  minX : Int
  minY : Int
  maxX : Int
  maxY : Int
deriving DecidableEq

/-- One step of the bounding-box scan of trimTransparentEdges: pixels with
alpha above 0 extend the box. -/
def bboxStep (c : Canvas) (s : BBox) (p : Int × Int) : BBox :=
  if 0 < (c.pixel p.1 p.2).a then
    ⟨min s.minX p.1, min s.minY p.2, max s.maxX p.1, max s.maxY p.2⟩
  else s

/-- The bounding-box scan of trimTransparentEdges, started from the
initial values minX = width, minY = height, maxX = maxY = -1. -/
def scanBBox (c : Canvas) : BBox :=
  (canvasPositions c).foldl (bboxStep c) ⟨c.width, c.height, -1, -1⟩

/-- A fresh 1-by-1 canvas (the degenerate result for an all-transparent
tile). -/
def emptyCanvas : Canvas := { width := 1, height := 1, pixel := fun _ _ => transparent }

/-- SpriteSlicer.trimTransparentEdges from src/slicer.ts. -/
def trimTransparentEdges (c : Canvas) (padding : Int) : TrimResult :=
  let bb := scanBBox c
  if bb.maxX = -1 then { canvas := emptyCanvas, isEmpty := true }
  else
    let minX := max 0 (bb.minX - padding)
    let minY := max 0 (bb.minY - padding)
    let maxX := min (c.width - 1) (bb.maxX + padding)
    let maxY := min (c.height - 1) (bb.maxY + padding)
    let trimmedWidth := maxX - minX + 1
    let trimmedHeight := maxY - minY + 1
    { canvas := drawImageRect c minX minY trimmedWidth trimmedHeight, isEmpty := false }

/-- SpriteSlicer.extractTile from src/slicer.ts. -/
def extractTile (image : Canvas) (settings : TileSettings) (row col : Int) : TileData :=
  let tileCanvas := extractTileCanvas image settings row col
  let result :=
    if settings.trimTransparent then
      let trimResult := trimTransparentEdges tileCanvas settings.preservePadding
      (trimResult.canvas, trimResult.isEmpty)
    else
      (tileCanvas, isCanvasEmpty tileCanvas)
  { canvas := result.1
    row := row
    col := col
    index := row * (if 0 < settings.tileWidth then
        Int.fdiv (image.width - settings.margin * 2 - settings.offsetX + settings.spacing)
          (settings.tileWidth + settings.spacing)
      else 1) + col
    isEmpty := result.2 }

/-- SpriteSlicer.sliceSprite from src/slicer.ts, with the progress callback
and cooperative yield dropped (they do not affect the produced tiles): the
row-major sequence of extracted tiles. -/
def sliceSprite (image : Canvas) (settings : TileSettings) (gridInfo : GridInfo) : List TileData :=
  (List.range gridInfo.rows.toNat).flatMap
    (fun row => (List.range gridInfo.cols.toNat).map
      (fun col => extractTile image settings ((row : Nat) : Int) ((col : Nat) : Int)))

/-- Fallback tile for out-of-range list lookups in reassembly. -/
def dummyTile : TileData := ⟨emptyCanvas, 0, 0, 0, true⟩

/-- Reassembly of a sliced tile list: the pixel at (x, y) is read from the
tile placed at grid position (col * tileWidth, row * tileHeight), the tile
being found at its row-major position in the list. -/
def reassemble (tiles : List TileData) (tileWidth tileHeight cols : Int) (x y : Int) : Pixel :=
  let row := Int.fdiv y tileHeight
  let col := Int.fdiv x tileWidth
  let tile := tiles.getD (row * cols + col).toNat dummyTile
  tile.canvas.pixel (x - col * tileWidth) (y - row * tileHeight)

/-- Feasible geometry exactly as claim C3 lists it. -/
def Feasible (s : TileSettings) (m : ImageMetadata) : Prop :=
  0 < s.tileWidth ∧ 0 < s.tileHeight ∧ 0 ≤ s.margin ∧ 0 ≤ s.spacing ∧
  0 ≤ s.offsetX ∧ 0 ≤ s.offsetY ∧
  s.margin * 2 + s.offsetX + s.tileWidth ≤ m.width ∧
  s.margin * 2 + s.offsetY + s.tileHeight ≤ m.height

/-- A coordinate pair holds a non-transparent pixel of the canvas: it is in
bounds and its alpha is above 0. -/
def NonTranspAt (c : Canvas) (x y : Int) : Prop :=
  0 ≤ x ∧ x < c.width ∧ 0 ≤ y ∧ y < c.height ∧ 0 < (c.pixel x y).a

/-- The canvas has at least one non-transparent pixel. -/
def HasContent (c : Canvas) : Prop := ∃ x y, NonTranspAt c x y

/-- b is the bounding box of the non-transparent pixels of c: each of its
four edges is attained by some non-transparent pixel and every
non-transparent pixel lies inside it. -/
def IsContentBBox (c : Canvas) (b : BBox) : Prop :=
  (∃ y, NonTranspAt c b.minX y) ∧ (∃ x, NonTranspAt c x b.minY) ∧
  (∃ y, NonTranspAt c b.maxX y) ∧ (∃ x, NonTranspAt c x b.maxY) ∧
  (∀ x y, NonTranspAt c x y → b.minX ≤ x ∧ x ≤ b.maxX ∧ b.minY ≤ y ∧ y ≤ b.maxY)

/-- Concrete settings for the C1 counterexample: a 32-pixel tile with a
20-pixel margin. -/
def cexSettings : TileSettings := ⟨32, 32, 20, 0, 0, 0, false, 0⟩

/-- Concrete metadata for the C1 counterexample: a 10-by-10 raster. -/
def cexMeta : ImageMetadata := ⟨10, 10, true⟩

/-- A fully transparent 32-by-32 raster (C2 counterexample input). -/
def imgT32 : Canvas := { width := 32, height := 32, pixel := fun _ _ => transparent }

/-- A fully transparent 64-by-64 raster (C4 concrete scenario input). -/
def img64 : Canvas := { width := 64, height := 64, pixel := fun _ _ => transparent }

/-- Settings of the C4 concrete scenario: 32-pixel tiles, everything else
zero, no trimming. -/
def s32 : TileSettings := ⟨32, 32, 0, 0, 0, 0, false, 0⟩

/-- A 4-by-4 raster whose pixel channels encode the coordinates, so that
reassembly equality is informative (C7 witness input). -/
def img4 : Canvas :=
  { width := 4, height := 4, pixel := fun x y => ⟨x.toNat, y.toNat, 7, 255⟩ }

/-- Settings slicing img4 into 2-by-2 tiles (C7 witness input). -/
def s2 : TileSettings := ⟨2, 2, 0, 0, 0, 0, false, 0⟩

/-- A 2-by-2 canvas with a single opaque pixel at the origin (witness input
for the trim claims). -/
def canvas2 : Canvas :=
  { width := 2, height := 2
    pixel := fun x y => if x = 0 ∧ y = 0 then ⟨255, 0, 0, 255⟩ else transparent }

/-! ## Generic list lemmas -/

/-- A fold that conditionally increments a counter computes the filtered
length. -/
theorem foldl_guard_count {α : Type} (qp : α → Prop) [DecidablePred qp]
    (p : α → Bool) (l : List α) (n : Int) (h : ∀ a ∈ l, qp a) :
    l.foldl (fun acc a => if qp a then if p a then acc + 1 else acc else acc) n
      = n + ((l.filter p).length : Int) := by
  induction l generalizing n with
  | nil => simp
  | cons a l ih =>
    have ha : qp a := h a (by simp)
    have hl : ∀ a ∈ l, qp a := fun a hal => h a (by simp [hal])
    rw [List.foldl_cons, if_pos ha, List.filter_cons]
    by_cases hp : p a
    · rw [if_pos hp, if_pos hp, ih _ hl]
      simp only [List.length_cons]
      push_cast
      ring
    · rw [if_neg hp, if_neg hp, ih _ hl]

/-- findSome? only depends on the values of the function on the list. -/
theorem findSome?_congr {α β : Type} {f g : α → Option β} (l : List α)
    (h : ∀ a ∈ l, f a = g a) : l.findSome? f = l.findSome? g := by
  induction l with
  | nil => simp [List.findSome?]
  | cons a l ih =>
    rw [List.findSome?_cons, List.findSome?_cons, h a (by simp),
      ih (fun a hal => h a (by simp [hal]))]

/-- Length of a rectangular flatMap-of-map block. -/
theorem length_flatMap_range_map {α : Type} (g : Nat → Nat → α) (n m : Nat) :
    ((List.range n).flatMap (fun r => (List.range m).map (g r))).length = n * m := by
  induction n with
  | zero => simp
  | succ n ih =>
    rw [List.range_succ, List.flatMap_append, List.length_append, ih]
    simp [Nat.succ_mul]

/-- Element lookup in a rectangular flatMap-of-map block at a row-major
index. -/
theorem getD_flatMap_range_map {α : Type} (g : Nat → Nat → α) (d : α)
    (n m i j : Nat) (hi : i < n) (hj : j < m) :
    ((List.range n).flatMap (fun r => (List.range m).map (g r))).getD (i * m + j) d
      = g i j := by
  induction n with
  | zero => omega
  | succ n ih =>
    rw [List.range_succ, List.flatMap_append]
    rcases Nat.lt_succ_iff_lt_or_eq.mp hi with hlt | rfl
    · have hidx : i * m + j < ((List.range n).flatMap (fun r => (List.range m).map (g r))).length := by
        rw [length_flatMap_range_map]
        calc i * m + j < i * m + m := by omega
        _ = (i + 1) * m := by ring
        _ ≤ n * m := Nat.mul_le_mul_right m (by omega)
      rw [List.getD_eq_getElem?_getD, List.getElem?_append_left hidx,
        ← List.getD_eq_getElem?_getD, ih hlt]
    · have hlen : ((List.range i).flatMap (fun r => (List.range m).map (g r))).length = i * m :=
        length_flatMap_range_map g i m
      rw [List.getD_eq_getElem?_getD, List.getElem?_append_right (by omega)]
      rw [hlen]
      have hsub : i * m + j - i * m = j := by omega
      rw [hsub]
      simp [List.getElem?_map, List.getElem?_range hj]

/-! ## Canvas position lemmas -/

/-- Membership in a rectangular flatMap-of-map block. -/
theorem mem_flatMap_range_map {α : Type} (g : Nat → Nat → α) (n m : Nat) (z : α) :
    z ∈ (List.range n).flatMap (fun r => (List.range m).map (g r)) ↔
      ∃ r, r < n ∧ ∃ c, c < m ∧ g r c = z := by
  simp only [List.mem_flatMap, List.mem_map, List.mem_range]

/-- Membership in the row-major scan order is exactly being in bounds. -/
theorem mem_canvasPositions {c : Canvas} {x y : Int} :
    (x, y) ∈ canvasPositions c ↔ 0 ≤ x ∧ x < c.width ∧ 0 ≤ y ∧ y < c.height := by
  rw [canvasPositions, mem_flatMap_range_map]
  constructor
  · rintro ⟨yn, hyn, xn, hxn, heq⟩
    obtain ⟨hx, hy⟩ := Prod.mk.injEq .. ▸ heq
    omega
  · rintro ⟨hx0, hxw, hy0, hyh⟩
    refine ⟨y.toNat, by omega, x.toNat, by omega, ?_⟩
    have h1 : ((x.toNat : Nat) : Int) = x := by omega
    have h2 : ((y.toNat : Nat) : Int) = y := by omega
    rw [h1, h2]

/-! ## Conditional min/max fold lemmas -/

/-- A conditional-min fold never exceeds its initial value. -/
theorem foldl_cmin_le_init {α : Type} (qp : α → Prop) [DecidablePred qp]
    (f : α → Int) (l : List α) (a : Int) :
    l.foldl (fun m p => if qp p then min m (f p) else m) a ≤ a := by
  induction l generalizing a with
  | nil => simp
  | cons x l ih =>
    rw [List.foldl_cons]
    by_cases h : qp x
    · rw [if_pos h]
      exact le_trans (ih _) (min_le_left _ _)
    · rw [if_neg h]
      exact ih a

/-- A conditional-min fold is at most every selected element. -/
theorem foldl_cmin_le_of_mem {α : Type} (qp : α → Prop) [DecidablePred qp]
    (f : α → Int) (l : List α) (a : Int) {x : α} (hx : x ∈ l) (hq : qp x) :
    l.foldl (fun m p => if qp p then min m (f p) else m) a ≤ f x := by
  induction l generalizing a with
  | nil => cases hx
  | cons y l ih =>
    rw [List.foldl_cons]
    rcases List.mem_cons.mp hx with rfl | hxl
    · rw [if_pos hq]
      exact le_trans (foldl_cmin_le_init qp f l _) (min_le_right _ _)
    · by_cases h : qp y
      · rw [if_pos h]
        exact ih _ hxl
      · rw [if_neg h]
        exact ih a hxl

/-- A conditional-min fold returns its initial value or a selected
element. -/
theorem foldl_cmin_eq_init_or_attained {α : Type} (qp : α → Prop) [DecidablePred qp]
    (f : α → Int) (l : List α) (a : Int) :
    l.foldl (fun m p => if qp p then min m (f p) else m) a = a ∨
      ∃ x, x ∈ l ∧ qp x ∧ l.foldl (fun m p => if qp p then min m (f p) else m) a = f x := by
  induction l generalizing a with
  | nil => exact Or.inl rfl
  | cons y l ih =>
    rw [List.foldl_cons]
    by_cases h : qp y
    · rw [if_pos h]
      rcases ih (min a (f y)) with heq | ⟨x, hxl, hqx, heq⟩
      · rcases le_total a (f y) with hle | hle
        · exact Or.inl (heq.trans (min_eq_left hle))
        · exact Or.inr ⟨y, by simp, h, heq.trans (min_eq_right hle)⟩
      · exact Or.inr ⟨x, by simp [hxl], hqx, heq⟩
    · rw [if_neg h]
      rcases ih a with heq | ⟨x, hxl, hqx, heq⟩
      · exact Or.inl heq
      · exact Or.inr ⟨x, by simp [hxl], hqx, heq⟩

/-- A conditional-max fold is at least its initial value. -/
theorem foldl_cmax_ge_init {α : Type} (qp : α → Prop) [DecidablePred qp]
    (f : α → Int) (l : List α) (a : Int) :
    a ≤ l.foldl (fun m p => if qp p then max m (f p) else m) a := by
  induction l generalizing a with
  | nil => simp
  | cons x l ih =>
    rw [List.foldl_cons]
    by_cases h : qp x
    · rw [if_pos h]
      exact le_trans (le_max_left _ _) (ih _)
    · rw [if_neg h]
      exact ih a

/-- A conditional-max fold is at least every selected element. -/
theorem foldl_cmax_ge_of_mem {α : Type} (qp : α → Prop) [DecidablePred qp]
    (f : α → Int) (l : List α) (a : Int) {x : α} (hx : x ∈ l) (hq : qp x) :
    f x ≤ l.foldl (fun m p => if qp p then max m (f p) else m) a := by
  induction l generalizing a with
  | nil => cases hx
  | cons y l ih =>
    rw [List.foldl_cons]
    rcases List.mem_cons.mp hx with rfl | hxl
    · rw [if_pos hq]
      exact le_trans (le_max_right _ _) (foldl_cmax_ge_init qp f l _)
    · by_cases h : qp y
      · rw [if_pos h]
        exact ih _ hxl
      · rw [if_neg h]
        exact ih a hxl

/-- A conditional-max fold returns its initial value or a selected
element. -/
theorem foldl_cmax_eq_init_or_attained {α : Type} (qp : α → Prop) [DecidablePred qp]
    (f : α → Int) (l : List α) (a : Int) :
    l.foldl (fun m p => if qp p then max m (f p) else m) a = a ∨
      ∃ x, x ∈ l ∧ qp x ∧ l.foldl (fun m p => if qp p then max m (f p) else m) a = f x := by
  induction l generalizing a with
  | nil => exact Or.inl rfl
  | cons y l ih =>
    rw [List.foldl_cons]
    by_cases h : qp y
    · rw [if_pos h]
      rcases ih (max a (f y)) with heq | ⟨x, hxl, hqx, heq⟩
      · rcases le_total (f y) a with hle | hle
        · exact Or.inl (heq.trans (max_eq_left hle))
        · exact Or.inr ⟨y, by simp, h, heq.trans (max_eq_right hle)⟩
      · exact Or.inr ⟨x, by simp [hxl], hqx, heq⟩
    · rw [if_neg h]
      rcases ih a with heq | ⟨x, hxl, hqx, heq⟩
      · exact Or.inl heq
      · exact Or.inr ⟨x, by simp [hxl], hqx, heq⟩

/-! ## Bounding-box scan characterization -/

/-- The bounding-box fold decomposes into four independent conditional
min/max folds. -/
theorem bbox_foldl_decomp (c : Canvas) (l : List (Int × Int)) (s : BBox) :
    l.foldl (bboxStep c) s =
      ⟨l.foldl (fun m p => if 0 < (c.pixel p.1 p.2).a then min m p.1 else m) s.minX,
       l.foldl (fun m p => if 0 < (c.pixel p.1 p.2).a then min m p.2 else m) s.minY,
       l.foldl (fun m p => if 0 < (c.pixel p.1 p.2).a then max m p.1 else m) s.maxX,
       l.foldl (fun m p => if 0 < (c.pixel p.1 p.2).a then max m p.2 else m) s.maxY⟩ := by
  induction l generalizing s with
  | nil => rfl
  | cons p l ih =>
    simp only [List.foldl_cons]
    rw [ih]
    by_cases h : 0 < (c.pixel p.1 p.2).a
    · simp only [bboxStep, if_pos h]
    · simp only [bboxStep, if_neg h]

/-- Every non-transparent pixel lies inside the scanned bounding box. -/
theorem scanBBox_bounds {c : Canvas} {x y : Int} (h : NonTranspAt c x y) :
    (scanBBox c).minX ≤ x ∧ x ≤ (scanBBox c).maxX ∧
      (scanBBox c).minY ≤ y ∧ y ≤ (scanBBox c).maxY := by
  obtain ⟨hx0, hxw, hy0, hyh, ha⟩ := h
  have hmem : (x, y) ∈ canvasPositions c := mem_canvasPositions.mpr ⟨hx0, hxw, hy0, hyh⟩
  rw [scanBBox, bbox_foldl_decomp]
  refine ⟨?_, ?_, ?_, ?_⟩
  · exact foldl_cmin_le_of_mem (fun p => 0 < (c.pixel p.1 p.2).a) (fun p => p.1) _ _ hmem ha
  · exact foldl_cmax_ge_of_mem (fun p => 0 < (c.pixel p.1 p.2).a) (fun p => p.1) _ _ hmem ha
  · exact foldl_cmin_le_of_mem (fun p => 0 < (c.pixel p.1 p.2).a) (fun p => p.2) _ _ hmem ha
  · exact foldl_cmax_ge_of_mem (fun p => 0 < (c.pixel p.1 p.2).a) (fun p => p.2) _ _ hmem ha

/-- The scan reports maxX = -1 exactly when the canvas has no
non-transparent pixel. -/
theorem scanBBox_maxX_eq_neg_one_iff (c : Canvas) :
    (scanBBox c).maxX = -1 ↔ ¬ HasContent c := by
  constructor
  · rintro hmax ⟨x, y, hxy⟩
    have hb := (scanBBox_bounds hxy).2.1
    rw [hmax] at hb
    have hx0 := hxy.1
    omega
  · intro h
    rw [scanBBox, bbox_foldl_decomp]
    rcases foldl_cmax_eq_init_or_attained (fun p => 0 < (c.pixel p.1 p.2).a)
      (fun p => p.1) (canvasPositions c) (-1) with heq | ⟨p, hmem, hq, heq⟩
    · exact heq
    · exfalso
      obtain ⟨px, py⟩ := p
      have hb := mem_canvasPositions.mp hmem
      exact h ⟨px, py, hb.1, hb.2.1, hb.2.2.1, hb.2.2.2, hq⟩

/-- On a canvas with content, the scanned box is the bounding box of the
non-transparent pixels. -/
theorem scanBBox_isContentBBox (c : Canvas) (h : HasContent c) :
    IsContentBBox c (scanBBox c) := by
  obtain ⟨x0, y0, h0⟩ := h
  have hbounds0 := scanBBox_bounds h0
  have hmembound : ∀ p : Int × Int, p ∈ canvasPositions c → 0 < (c.pixel p.1 p.2).a →
      NonTranspAt c p.1 p.2 := by
    rintro ⟨px, py⟩ hmem hq
    have hb := mem_canvasPositions.mp hmem
    exact ⟨hb.1, hb.2.1, hb.2.2.1, hb.2.2.2, hq⟩
  refine ⟨?_, ?_, ?_, ?_, fun x y hxy => scanBBox_bounds hxy⟩
  · rcases foldl_cmin_eq_init_or_attained (fun p => 0 < (c.pixel p.1 p.2).a)
      (fun p => p.1) (canvasPositions c) c.width with heq | ⟨p, hmem, hq, heq⟩
    · exfalso
      have h1 : (scanBBox c).minX = c.width := by
        rw [scanBBox, bbox_foldl_decomp]
        exact heq
      have h2 := hbounds0.1
      have h3 := h0.2.1
      omega
    · have h1 : (scanBBox c).minX = p.1 := by
        rw [scanBBox, bbox_foldl_decomp]
        exact heq
      have h2 := hmembound p hmem hq
      exact ⟨p.2, h1 ▸ h2⟩
  · rcases foldl_cmin_eq_init_or_attained (fun p => 0 < (c.pixel p.1 p.2).a)
      (fun p => p.2) (canvasPositions c) c.height with heq | ⟨p, hmem, hq, heq⟩
    · exfalso
      have h1 : (scanBBox c).minY = c.height := by
        rw [scanBBox, bbox_foldl_decomp]
        exact heq
      have h2 := hbounds0.2.2.1
      have h3 := h0.2.2.2.1
      omega
    · have h1 : (scanBBox c).minY = p.2 := by
        rw [scanBBox, bbox_foldl_decomp]
        exact heq
      have h2 := hmembound p hmem hq
      exact ⟨p.1, h1 ▸ h2⟩
  · rcases foldl_cmax_eq_init_or_attained (fun p => 0 < (c.pixel p.1 p.2).a)
      (fun p => p.1) (canvasPositions c) (-1) with heq | ⟨p, hmem, hq, heq⟩
    · exfalso
      have h1 : (scanBBox c).maxX = -1 := by
        rw [scanBBox, bbox_foldl_decomp]
        exact heq
      have h2 := hbounds0.2.1
      have h3 := h0.1
      omega
    · have h1 : (scanBBox c).maxX = p.1 := by
        rw [scanBBox, bbox_foldl_decomp]
        exact heq
      have h2 := hmembound p hmem hq
      exact ⟨p.2, h1 ▸ h2⟩
  · rcases foldl_cmax_eq_init_or_attained (fun p => 0 < (c.pixel p.1 p.2).a)
      (fun p => p.2) (canvasPositions c) (-1) with heq | ⟨p, hmem, hq, heq⟩
    · exfalso
      have h1 : (scanBBox c).maxY = -1 := by
        rw [scanBBox, bbox_foldl_decomp]
        exact heq
      have h2 := hbounds0.2.2.2
      have h3 := h0.2.2.1
      omega
    · have h1 : (scanBBox c).maxY = p.2 := by
        rw [scanBBox, bbox_foldl_decomp]
        exact heq
      have h2 := hmembound p hmem hq
      exact ⟨p.1, h1 ▸ h2⟩

/-- The content bounding box is unique. -/
theorem contentBBox_unique {c : Canvas} {b b' : BBox}
    (hb : IsContentBBox c b) (hb' : IsContentBBox c b') : b = b' := by
  obtain ⟨⟨ya, hya⟩, ⟨xa, hxa⟩, ⟨yb, hyb⟩, ⟨xb, hxb⟩, hall⟩ := hb
  obtain ⟨⟨ya', hya'⟩, ⟨xa', hxa'⟩, ⟨yb', hyb'⟩, ⟨xb', hxb'⟩, hall'⟩ := hb'
  have h1 := hall _ _ hya'
  have h2 := hall _ _ hxa'
  have h3 := hall _ _ hyb'
  have h4 := hall _ _ hxb'
  have h5 := hall' _ _ hya
  have h6 := hall' _ _ hxa
  have h7 := hall' _ _ hyb
  have h8 := hall' _ _ hxb
  cases b
  cases b'
  simp only [BBox.mk.injEq]
  simp only at h1 h2 h3 h4 h5 h6 h7 h8
  omega

/-- The content bounding box lies inside the canvas. -/
theorem contentBBox_bounds {c : Canvas} {b : BBox} (hb : IsContentBBox c b) :
    0 ≤ b.minX ∧ b.minX ≤ b.maxX ∧ b.maxX < c.width ∧
      0 ≤ b.minY ∧ b.minY ≤ b.maxY ∧ b.maxY < c.height := by
  obtain ⟨⟨ya, hya⟩, ⟨xa, hxa⟩, ⟨yb, hyb⟩, ⟨xb, hxb⟩, hall⟩ := hb
  have h1 := hall _ _ hya
  have h2 := hall _ _ hyb
  have h3 := hall _ _ hxa
  have h4 := hall _ _ hxb
  have h5 := hya.1
  have h6 := hya.2.1
  have h7 := hyb.1
  have h8 := hyb.2.1
  have h9 := hxa.2.2.1
  have h10 := hxa.2.2.2.1
  have h11 := hxb.2.2.1
  have h12 := hxb.2.2.2.1
  omega

/-! ## Trim lemmas -/

/-- Trimming an all-transparent canvas gives the degenerate empty result. -/
theorem trimTransparentEdges_of_not_hasContent (c : Canvas) (padding : Int)
    (h : ¬ HasContent c) :
    trimTransparentEdges c padding = ⟨emptyCanvas, true⟩ := by
  simp only [trimTransparentEdges]
  rw [if_pos ((scanBBox_maxX_eq_neg_one_iff c).mpr h)]

/-- Trimming a canvas with content copies the padded, clamped bounding
box. -/
theorem trimTransparentEdges_of_hasContent (c : Canvas) (padding : Int)
    (h : HasContent c) :
    trimTransparentEdges c padding =
      ⟨drawImageRect c (max 0 ((scanBBox c).minX - padding)) (max 0 ((scanBBox c).minY - padding))
        (min (c.width - 1) ((scanBBox c).maxX + padding) - max 0 ((scanBBox c).minX - padding) + 1)
        (min (c.height - 1) ((scanBBox c).maxY + padding) - max 0 ((scanBBox c).minY - padding) + 1),
       false⟩ := by
  have hne : ¬ (scanBBox c).maxX = -1 :=
    fun heq => ((scanBBox_maxX_eq_neg_one_iff c).mp heq) h
  simp only [trimTransparentEdges]
  rw [if_neg hne]

/-- Pixels of a copied rectangle inside the destination bounds come from the
source rectangle. -/
theorem drawImageRect_pixel_of_inBounds (src : Canvas) (sx sy w h x y : Int)
    (hx0 : 0 ≤ x) (hxw : x < w) (hy0 : 0 ≤ y) (hyh : y < h) :
    (drawImageRect src sx sy w h).pixel x y = src.pixel (sx + x) (sy + y) := by
  simp only [drawImageRect]
  rw [if_pos ⟨hx0, hxw, hy0, hyh⟩]

/-- Copying a whole canvas that is transparent outside its bounds is the
identity. -/
theorem drawImageRect_self (d : Canvas)
    (hT : ∀ x y, ¬ (0 ≤ x ∧ x < d.width ∧ 0 ≤ y ∧ y < d.height) → d.pixel x y = transparent) :
    drawImageRect d 0 0 d.width d.height = d := by
  obtain ⟨w, h, pix⟩ := d
  simp only [drawImageRect]
  simp only at hT
  congr 1
  funext x y
  by_cases hb : 0 ≤ x ∧ x < w ∧ 0 ≤ y ∧ y < h
  · rw [if_pos hb, zero_add, zero_add]
  · rw [if_neg hb]
    exact (hT x y hb).symm

/-- A copied rectangle is transparent outside its bounds. -/
theorem drawImageRect_pixel_of_not_inBounds (src : Canvas) (sx sy w h x y : Int)
    (hb : ¬ (0 ≤ x ∧ x < w ∧ 0 ≤ y ∧ y < h)) :
    (drawImageRect src sx sy w h).pixel x y = transparent := by
  simp only [drawImageRect]
  rw [if_neg hb]

/-- Content of a copied rectangle corresponds to content of the source
rectangle. -/
theorem hasContent_drawImageRect (src : Canvas) (sx sy w h : Int) :
    HasContent (drawImageRect src sx sy w h) ↔
      ∃ x y, 0 ≤ x ∧ x < w ∧ 0 ≤ y ∧ y < h ∧ 0 < (src.pixel (sx + x) (sy + y)).a := by
  constructor
  · rintro ⟨x, y, hx0, hxw, hy0, hyh, ha⟩
    refine ⟨x, y, hx0, hxw, hy0, hyh, ?_⟩
    rwa [drawImageRect_pixel_of_inBounds src sx sy w h x y hx0 hxw hy0 hyh] at ha
  · rintro ⟨x, y, hx0, hxw, hy0, hyh, ha⟩
    refine ⟨x, y, hx0, hxw, hy0, hyh, ?_⟩
    rwa [drawImageRect_pixel_of_inBounds src sx sy w h x y hx0 hxw hy0 hyh]

/-- The direct all-alpha-zero check agrees with the absence of content. -/
theorem isCanvasEmpty_iff_not_hasContent (c : Canvas) :
    isCanvasEmpty c = true ↔ ¬ HasContent c := by
  rw [isCanvasEmpty, List.all_eq_true]
  constructor
  · rintro hall ⟨x, y, hx0, hxw, hy0, hyh, ha⟩
    have hmem : (x, y) ∈ canvasPositions c := mem_canvasPositions.mpr ⟨hx0, hxw, hy0, hyh⟩
    have hz := hall _ hmem
    simp only [decide_eq_true_eq] at hz
    omega
  · intro h p hmem
    obtain ⟨px, py⟩ := p
    have hb := mem_canvasPositions.mp hmem
    simp only [decide_eq_true_eq]
    by_contra hne
    exact h ⟨px, py, hb.1, hb.2.1, hb.2.2.1, hb.2.2.2, by omega⟩

/-- The trim result's empty flag is set exactly when the input canvas has no
content. -/
theorem trimTransparentEdges_isEmpty_iff (c : Canvas) (padding : Int) :
    (trimTransparentEdges c padding).isEmpty = true ↔ ¬ HasContent c := by
  by_cases h : HasContent c
  · rw [trimTransparentEdges_of_hasContent c padding h]
    simp [h]
  · rw [trimTransparentEdges_of_not_hasContent c padding h]
    simp [h]

/-- The empty canvas has no content. -/
theorem not_hasContent_emptyCanvas : ¬ HasContent emptyCanvas := by
  rintro ⟨x, y, hx0, hxw, hy0, hyh, ha⟩
  simp only [emptyCanvas, transparent] at ha
  omega

/-! ## Arithmetic helper -/

/-- Clamping distributes over a product when at least one factor is
non-negative. -/
theorem max_zero_mul_of_nonneg_left_or_right (R C : Int) (h : 0 ≤ R ∨ 0 ≤ C) :
    max 0 (R * C) = max 0 R * max 0 C := by
  rcases h with hR | hC
  · rw [max_eq_right hR]
    by_cases hC0 : 0 ≤ C
    · rw [max_eq_right hC0, max_eq_right (mul_nonneg hR hC0)]
    · push_neg at hC0
      rw [max_eq_left (le_of_lt hC0), mul_zero,
        max_eq_left (mul_nonpos_of_nonneg_of_nonpos hR (le_of_lt hC0))]
  · rw [max_eq_right hC]
    by_cases hR0 : 0 ≤ R
    · rw [max_eq_right hR0, max_eq_right (mul_nonneg hR0 hC)]
    · push_neg at hR0
      rw [max_eq_left (le_of_lt hR0), zero_mul,
        max_eq_left (mul_nonpos_of_nonpos_of_nonneg (le_of_lt hR0) hC)]

/-- A conditional singleton list is empty exactly when its condition
fails. -/
theorem ite_singleton_eq_nil {α : Type} {c : Prop} [Decidable c] {a : α} :
    (if c then [a] else []) = ([] : List α) ↔ ¬ c := by
  by_cases h : c <;> simp [h]

/-! ## Claim C1 -/

/-- C1 counterexample: on a 10-by-10 raster with 32-pixel tiles and a
20-pixel margin, both raw row and column counts are -1, so the returned
record has rows = 0, cols = 0 but totalTiles = max 0 ((-1) * (-1)) = 1,
violating the claimed invariant totalTiles = rows * cols. -/
theorem calculateGrid_claim_counterexample :
    (calculateGrid cexSettings cexMeta).rows = 0 ∧
    (calculateGrid cexSettings cexMeta).cols = 0 ∧
    (calculateGrid cexSettings cexMeta).totalTiles = 1 ∧
    ¬ (calculateGrid cexSettings cexMeta).totalTiles =
        (calculateGrid cexSettings cexMeta).rows * (calculateGrid cexSettings cexMeta).cols := by
  decide

/-- C1 amended: calculateGrid clamps rows and cols to at least 0 using the
floored-division formulas of the claim, but totalTiles is the clamp of the
product of the UNCLAMPED row and column counts; all three fields are
non-negative, and totalTiles = rows * cols holds whenever at least one of
the raw counts is non-negative (it can fail only when both are negative). -/
theorem calculateGrid_amended :
    ∀ (s : TileSettings) (m : ImageMetadata),
      0 < s.tileWidth + s.spacing → 0 < s.tileHeight + s.spacing →
      (calculateGrid s m).cols
          = max 0 (Int.fdiv (m.width - 2 * s.margin - s.offsetX + s.spacing)
              (s.tileWidth + s.spacing)) ∧
      (calculateGrid s m).rows
          = max 0 (Int.fdiv (m.height - 2 * s.margin - s.offsetY + s.spacing)
              (s.tileHeight + s.spacing)) ∧
      (calculateGrid s m).totalTiles
          = max 0 (Int.fdiv (m.height - 2 * s.margin - s.offsetY + s.spacing)
                (s.tileHeight + s.spacing)
              * Int.fdiv (m.width - 2 * s.margin - s.offsetX + s.spacing)
                (s.tileWidth + s.spacing)) ∧
      0 ≤ (calculateGrid s m).rows ∧ 0 ≤ (calculateGrid s m).cols ∧
      0 ≤ (calculateGrid s m).totalTiles ∧
      ((0 ≤ Int.fdiv (m.height - 2 * s.margin - s.offsetY + s.spacing)
            (s.tileHeight + s.spacing) ∨
        0 ≤ Int.fdiv (m.width - 2 * s.margin - s.offsetX + s.spacing)
            (s.tileWidth + s.spacing)) →
        (calculateGrid s m).totalTiles = (calculateGrid s m).rows * (calculateGrid s m).cols) := by
  intro s m _ _
  have hw : m.width - s.margin * 2 - s.offsetX = m.width - 2 * s.margin - s.offsetX := by
    ring
  have hh : m.height - s.margin * 2 - s.offsetY = m.height - 2 * s.margin - s.offsetY := by
    ring
  refine ⟨?_, ?_, ?_, le_max_left _ _, le_max_left _ _, le_max_left _ _, ?_⟩
  · simp only [calculateGrid]
    rw [hw]
  · simp only [calculateGrid]
    rw [hh]
  · simp only [calculateGrid]
    rw [hw, hh]
  · intro h
    simp only [calculateGrid]
    rw [hw, hh]
    exact max_zero_mul_of_nonneg_left_or_right _ _ h

/-- C1 amended, instantiated at the counterexample input: the hypotheses
hold and all clamps are non-negative there. -/
theorem calculateGrid_amended_witness :
    0 < cexSettings.tileWidth + cexSettings.spacing ∧
    0 < cexSettings.tileHeight + cexSettings.spacing ∧
    0 ≤ (calculateGrid cexSettings cexMeta).rows ∧
    0 ≤ (calculateGrid cexSettings cexMeta).cols ∧
    0 ≤ (calculateGrid cexSettings cexMeta).totalTiles :=
  ⟨by decide, by decide,
    (calculateGrid_amended cexSettings cexMeta (by decide) (by decide)).2.2.2.1,
    (calculateGrid_amended cexSettings cexMeta (by decide) (by decide)).2.2.2.2.1,
    (calculateGrid_amended cexSettings cexMeta (by decide) (by decide)).2.2.2.2.2.1⟩

/-! ## Claim C3 -/

/-- C3: validateSettings returns the empty list exactly when the geometry is
feasible, and each individually violated constraint contributes its specific
message independently of the other fields. -/
theorem validateSettings_spec :
    ∀ (s : TileSettings) (m : ImageMetadata),
      (validateSettings s m = [] ↔ Feasible s m) ∧
      (s.tileWidth ≤ 0 → "Tile width must be greater than 0" ∈ validateSettings s m) ∧
      (s.tileHeight ≤ 0 → "Tile height must be greater than 0" ∈ validateSettings s m) ∧
      (s.margin < 0 → "Margin cannot be negative" ∈ validateSettings s m) ∧
      (s.spacing < 0 → "Spacing cannot be negative" ∈ validateSettings s m) ∧
      (s.offsetX < 0 → "Offset X cannot be negative" ∈ validateSettings s m) ∧
      (s.offsetY < 0 → "Offset Y cannot be negative" ∈ validateSettings s m) ∧
      (m.width < s.margin * 2 + s.offsetX + s.tileWidth →
        ("Image width (" ++ toString m.width ++
          "px) is too small for current settings (requires at least " ++
          toString (s.margin * 2 + s.offsetX + s.tileWidth) ++ "px)") ∈ validateSettings s m) ∧
      (m.height < s.margin * 2 + s.offsetY + s.tileHeight →
        ("Image height (" ++ toString m.height ++
          "px) is too small for current settings (requires at least " ++
          toString (s.margin * 2 + s.offsetY + s.tileHeight) ++ "px)") ∈ validateSettings s m) := by
  intro s m
  refine ⟨?_, ?_, ?_, ?_, ?_, ?_, ?_, ?_, ?_⟩
  · simp only [validateSettings, List.append_eq_nil, ite_singleton_eq_nil, Feasible]
    omega
  · intro h
    simp [validateSettings, h]
  · intro h
    simp [validateSettings, h]
  · intro h
    simp [validateSettings, h]
  · intro h
    simp [validateSettings, h]
  · intro h
    simp [validateSettings, h]
  · intro h
    simp [validateSettings, h]
  · intro h
    simp [validateSettings, h]
  · intro h
    simp [validateSettings, h]

/-! ## Claim C5 -/

/-- C5: the tile buffer built inside extractTile has exactly size
tileWidth-by-tileHeight and copies the source rectangle whose origin is
(margin + offsetX + col * (tileWidth + spacing),
 margin + offsetY + row * (tileHeight + spacing)); when trimming is off the
returned tile owns exactly this buffer. -/
theorem extractTile_copies_rectangle :
    ∀ (image : Canvas) (s : TileSettings) (row col : Int),
      (extractTileCanvas image s row col).width = s.tileWidth ∧
      (extractTileCanvas image s row col).height = s.tileHeight ∧
      (∀ x y, 0 ≤ x → x < s.tileWidth → 0 ≤ y → y < s.tileHeight →
        (extractTileCanvas image s row col).pixel x y
          = image.pixel (s.margin + s.offsetX + col * (s.tileWidth + s.spacing) + x)
              (s.margin + s.offsetY + row * (s.tileHeight + s.spacing) + y)) ∧
      (s.trimTransparent = false →
        (extractTile image s row col).canvas = extractTileCanvas image s row col) := by
  intro image s row col
  refine ⟨rfl, rfl, ?_, ?_⟩
  · intro x y hx0 hxw hy0 hyh
    exact drawImageRect_pixel_of_inBounds image _ _ _ _ x y hx0 hxw hy0 hyh
  · intro htrim
    simp [extractTile, htrim]

/-- Dimensions of a copied rectangle. -/
theorem drawImageRect_width (src : Canvas) (sx sy w h : Int) :
    (drawImageRect src sx sy w h).width = w := rfl

/-- Height of a copied rectangle. -/
theorem drawImageRect_height (src : Canvas) (sx sy w h : Int) :
    (drawImageRect src sx sy w h).height = h := rfl

/-- Trimming with padding 0 a canvas whose content bounding box already
touches all four edges, and which is transparent outside its bounds, is the
identity (up to the fresh copy). -/
theorem trim_tight (d : Canvas) (hd : HasContent d)
    (hscan : scanBBox d = ⟨0, 0, d.width - 1, d.height - 1⟩)
    (hT : ∀ x y, ¬ (0 ≤ x ∧ x < d.width ∧ 0 ≤ y ∧ y < d.height) → d.pixel x y = transparent) :
    trimTransparentEdges d 0 = ⟨d, false⟩ := by
  rw [trimTransparentEdges_of_hasContent d 0 hd, hscan]
  show TrimResult.mk
      (drawImageRect d (max 0 (0 - 0)) (max 0 (0 - 0))
        (min (d.width - 1) (d.width - 1 + 0) - max 0 (0 - 0) + 1)
        (min (d.height - 1) (d.height - 1 + 0) - max 0 (0 - 0) + 1)) false
    = ⟨d, false⟩
  have e0 : max (0 : Int) (0 - 0) = 0 := by decide
  rw [e0]
  have e1 : min (d.width - 1) (d.width - 1 + 0) - 0 + 1 = d.width := by
    rw [add_zero, min_self]
    ring
  have e2 : min (d.height - 1) (d.height - 1 + 0) - 0 + 1 = d.height := by
    rw [add_zero, min_self]
    ring
  rw [e1, e2, drawImageRect_self d hT]

/-- Trimming with padding 0 copies exactly the content bounding box. -/
theorem trim0_canvas_eq (c : Canvas) (h : HasContent c) :
    trimTransparentEdges c 0 =
      ⟨drawImageRect c (scanBBox c).minX (scanBBox c).minY
        ((scanBBox c).maxX - (scanBBox c).minX + 1)
        ((scanBBox c).maxY - (scanBBox c).minY + 1),
       false⟩ := by
  have hbd := contentBBox_bounds (scanBBox_isContentBBox c h)
  rw [trimTransparentEdges_of_hasContent c 0 h]
  have e1 : max 0 ((scanBBox c).minX - 0) = (scanBBox c).minX := by
    rw [sub_zero]
    exact max_eq_right hbd.1
  have e2 : max 0 ((scanBBox c).minY - 0) = (scanBBox c).minY := by
    rw [sub_zero]
    exact max_eq_right hbd.2.2.2.1
  have e3 : min (c.width - 1) ((scanBBox c).maxX + 0) = (scanBBox c).maxX := by
    rw [add_zero]
    exact min_eq_right (by omega)
  have e4 : min (c.height - 1) ((scanBBox c).maxY + 0) = (scanBBox c).maxY := by
    rw [add_zero]
    exact min_eq_right (by omega)
  rw [e1, e2, e3, e4]

/-- The copy of a content bounding box has content, and its own content
bounding box touches all four of its edges. -/
theorem trimmed_canvas_tight (c : Canvas) {b : BBox} (hb : IsContentBBox c b) :
    HasContent (drawImageRect c b.minX b.minY (b.maxX - b.minX + 1) (b.maxY - b.minY + 1)) ∧
    scanBBox (drawImageRect c b.minX b.minY (b.maxX - b.minX + 1) (b.maxY - b.minY + 1)) =
      ⟨0, 0,
        (drawImageRect c b.minX b.minY (b.maxX - b.minX + 1) (b.maxY - b.minY + 1)).width - 1,
        (drawImageRect c b.minX b.minY (b.maxX - b.minX + 1) (b.maxY - b.minY + 1)).height - 1⟩ := by
  have hbd := contentBBox_bounds hb
  have hall := hb.2.2.2.2
  have hwd : (drawImageRect c b.minX b.minY (b.maxX - b.minX + 1) (b.maxY - b.minY + 1)).width
      = b.maxX - b.minX + 1 := rfl
  have hht : (drawImageRect c b.minX b.minY (b.maxX - b.minX + 1) (b.maxY - b.minY + 1)).height
      = b.maxY - b.minY + 1 := rfl
  have hpix : ∀ x y, 0 ≤ x → x < b.maxX - b.minX + 1 → 0 ≤ y → y < b.maxY - b.minY + 1 →
      (drawImageRect c b.minX b.minY (b.maxX - b.minX + 1) (b.maxY - b.minY + 1)).pixel x y
        = c.pixel (b.minX + x) (b.minY + y) :=
    fun x y hx0 hxw hy0 hyh => drawImageRect_pixel_of_inBounds c _ _ _ _ x y hx0 hxw hy0 hyh
  have hcd : HasContent (drawImageRect c b.minX b.minY (b.maxX - b.minX + 1) (b.maxY - b.minY + 1)) := by
    obtain ⟨ya, hya⟩ := hb.1
    have hyb := hall _ _ hya
    refine ⟨0, ya - b.minY, le_refl 0, ?_, by omega, ?_, ?_⟩
    · rw [hwd]
      omega
    · rw [hht]
      omega
    · rw [hpix 0 (ya - b.minY) (le_refl 0) (by omega) (by omega) (by omega)]
      have hx : b.minX + 0 = b.minX := add_zero _
      have hy : b.minY + (ya - b.minY) = ya := by ring
      rw [hx, hy]
      exact hya.2.2.2.2
  refine ⟨hcd, contentBBox_unique (scanBBox_isContentBBox _ hcd) ?_⟩
  rw [hwd, hht]
  have hwe : b.maxX - b.minX + 1 - 1 = b.maxX - b.minX := by ring
  have hhe : b.maxY - b.minY + 1 - 1 = b.maxY - b.minY := by ring
  rw [hwe, hhe]
  dsimp only [IsContentBBox]
  refine ⟨?_, ?_, ?_, ?_, ?_⟩
  · obtain ⟨ya, hya⟩ := hb.1
    have hyb := hall _ _ hya
    refine ⟨ya - b.minY, le_refl 0, ?_, by omega, ?_, ?_⟩
    · rw [hwd]
      omega
    · rw [hht]
      omega
    · rw [hpix 0 (ya - b.minY) (le_refl 0) (by omega) (by omega) (by omega)]
      have hx : b.minX + 0 = b.minX := add_zero _
      have hy : b.minY + (ya - b.minY) = ya := by ring
      rw [hx, hy]
      exact hya.2.2.2.2
  · obtain ⟨xa, hxa⟩ := hb.2.1
    have hxb := hall _ _ hxa
    refine ⟨xa - b.minX, by omega, ?_, le_refl 0, ?_, ?_⟩
    · rw [hwd]
      omega
    · rw [hht]
      omega
    · rw [hpix (xa - b.minX) 0 (by omega) (by omega) (le_refl 0) (by omega)]
      have hx : b.minX + (xa - b.minX) = xa := by ring
      have hy : b.minY + 0 = b.minY := add_zero _
      rw [hx, hy]
      exact hxa.2.2.2.2
  · obtain ⟨yc, hyc⟩ := hb.2.2.1
    have hyb := hall _ _ hyc
    refine ⟨yc - b.minY, by omega, ?_, by omega, ?_, ?_⟩
    · rw [hwd]
      omega
    · rw [hht]
      omega
    · rw [hpix (b.maxX - b.minX) (yc - b.minY) (by omega) (by omega) (by omega) (by omega)]
      have hx : b.minX + (b.maxX - b.minX) = b.maxX := by ring
      have hy : b.minY + (yc - b.minY) = yc := by ring
      rw [hx, hy]
      exact hyc.2.2.2.2
  · obtain ⟨xc, hxc⟩ := hb.2.2.2.1
    have hxb := hall _ _ hxc
    refine ⟨xc - b.minX, by omega, ?_, by omega, ?_, ?_⟩
    · rw [hwd]
      omega
    · rw [hht]
      omega
    · rw [hpix (xc - b.minX) (b.maxY - b.minY) (by omega) (by omega) (by omega) (by omega)]
      have hx : b.minX + (xc - b.minX) = xc := by ring
      have hy : b.minY + (b.maxY - b.minY) = b.maxY := by ring
      rw [hx, hy]
      exact hxc.2.2.2.2
  · rintro x y ⟨hx0, hxw, hy0, hyh, _⟩
    rw [hwd] at hxw
    rw [hht] at hyh
    exact ⟨hx0, by omega, hy0, by omega⟩

/-! ## Claim C6 -/

/-- C6: trimming computes the bounding box of the pixels with alpha above 0;
with no such pixel it returns a degenerate 1-by-1 empty tile, otherwise it
copies the padding-expanded, bounds-clamped bounding box and reports the
tile non-empty. -/
theorem trimTransparentEdges_claim :
    ∀ (c : Canvas) (padding : Int), 0 ≤ padding →
      emptyCanvas.width = 1 ∧ emptyCanvas.height = 1 ∧
      (¬ HasContent c → trimTransparentEdges c padding = ⟨emptyCanvas, true⟩) ∧
      (HasContent c → ∃ b : BBox, IsContentBBox c b ∧
        trimTransparentEdges c padding =
          ⟨drawImageRect c (max 0 (b.minX - padding)) (max 0 (b.minY - padding))
            (min (c.width - 1) (b.maxX + padding) - max 0 (b.minX - padding) + 1)
            (min (c.height - 1) (b.maxY + padding) - max 0 (b.minY - padding) + 1),
          false⟩) := by
  intro c padding _
  refine ⟨rfl, rfl, trimTransparentEdges_of_not_hasContent c padding, ?_⟩
  intro h
  exact ⟨scanBBox c, scanBBox_isContentBBox c h, trimTransparentEdges_of_hasContent c padding h⟩

/-- C6 instantiated at a 2-by-2 canvas with one opaque pixel and padding
0. -/
theorem trimTransparentEdges_claim_witness :
    (0 : Int) ≤ 0 ∧
    (HasContent canvas2 → ∃ b : BBox, IsContentBBox canvas2 b ∧
      trimTransparentEdges canvas2 0 =
        ⟨drawImageRect canvas2 (max 0 (b.minX - 0)) (max 0 (b.minY - 0))
          (min (canvas2.width - 1) (b.maxX + 0) - max 0 (b.minX - 0) + 1)
          (min (canvas2.height - 1) (b.maxY + 0) - max 0 (b.minY - 0) + 1),
        false⟩) :=
  ⟨by decide, (trimTransparentEdges_claim canvas2 0 (by decide)).2.2.2⟩

/-! ## Claim C8 -/

/-- C8: trimming with padding 0 is idempotent; the second trim returns the
first trim's result unchanged (same bounding box, same buffer, same empty
flag). -/
theorem trim_idempotent :
    ∀ c : Canvas,
      trimTransparentEdges (trimTransparentEdges c 0).canvas 0 = trimTransparentEdges c 0 := by
  intro c
  by_cases h : HasContent c
  · rw [trim0_canvas_eq c h]
    obtain ⟨hcd, hscan⟩ := trimmed_canvas_tight c (scanBBox_isContentBBox c h)
    exact trim_tight _ hcd hscan
      (fun x y hb => drawImageRect_pixel_of_not_inBounds c _ _ _ _ x y hb)
  · rw [trimTransparentEdges_of_not_hasContent c 0 h]
    exact trimTransparentEdges_of_not_hasContent emptyCanvas 0 not_hasContent_emptyCanvas

/-! ## Claim C10 -/

/-- C10: for a tile of positive dimensions and non-negative padding, the
trimmed buffer's dimensions are between 1 and the original dimensions. -/
theorem trim_result_dims :
    ∀ (c : Canvas) (padding : Int), 1 ≤ c.width → 1 ≤ c.height → 0 ≤ padding →
      1 ≤ (trimTransparentEdges c padding).canvas.width ∧
      (trimTransparentEdges c padding).canvas.width ≤ c.width ∧
      1 ≤ (trimTransparentEdges c padding).canvas.height ∧
      (trimTransparentEdges c padding).canvas.height ≤ c.height := by
  intro c padding hw hh hp
  by_cases h : HasContent c
  · have hbd := contentBBox_bounds (scanBBox_isContentBBox c h)
    rw [trimTransparentEdges_of_hasContent c padding h]
    dsimp only [drawImageRect]
    have a1 : 0 ≤ max 0 ((scanBBox c).minX - padding) := le_max_left _ _
    have a2 : max 0 ((scanBBox c).minX - padding) ≤ (scanBBox c).minX :=
      max_le hbd.1 (by omega)
    have a3 : min (c.width - 1) ((scanBBox c).maxX + padding) ≤ c.width - 1 := min_le_left _ _
    have a4 : (scanBBox c).maxX ≤ min (c.width - 1) ((scanBBox c).maxX + padding) :=
      le_min (by omega) (by omega)
    have b1 : 0 ≤ max 0 ((scanBBox c).minY - padding) := le_max_left _ _
    have b2 : max 0 ((scanBBox c).minY - padding) ≤ (scanBBox c).minY :=
      max_le hbd.2.2.2.1 (by omega)
    have b3 : min (c.height - 1) ((scanBBox c).maxY + padding) ≤ c.height - 1 := min_le_left _ _
    have b4 : (scanBBox c).maxY ≤ min (c.height - 1) ((scanBBox c).maxY + padding) :=
      le_min (by omega) (by omega)
    omega
  · rw [trimTransparentEdges_of_not_hasContent c padding h]
    dsimp only [emptyCanvas]
    omega

/-- C10 instantiated at a 2-by-2 canvas with one opaque pixel and padding
0. -/
theorem trim_result_dims_witness :
    (1 : Int) ≤ canvas2.width ∧ (1 : Int) ≤ canvas2.height ∧ (0 : Int) ≤ 0 ∧
    1 ≤ (trimTransparentEdges canvas2 0).canvas.width ∧
    (trimTransparentEdges canvas2 0).canvas.width ≤ canvas2.width ∧
    1 ≤ (trimTransparentEdges canvas2 0).canvas.height ∧
    (trimTransparentEdges canvas2 0).canvas.height ≤ canvas2.height :=
  ⟨by decide, by decide, by decide,
    (trim_result_dims canvas2 0 (by decide) (by decide) (by decide)).1,
    (trim_result_dims canvas2 0 (by decide) (by decide) (by decide)).2.1,
    (trim_result_dims canvas2 0 (by decide) (by decide) (by decide)).2.2.1,
    (trim_result_dims canvas2 0 (by decide) (by decide) (by decide)).2.2.2⟩

/-- The tile buffer extracted for a grid cell has no content exactly when
every pixel of the source rectangle has alpha 0. -/
theorem not_hasContent_extractTileCanvas (image : Canvas) (s : TileSettings) (row col : Int) :
    ¬ HasContent (extractTileCanvas image s row col) ↔
      ∀ x y, 0 ≤ x → x < s.tileWidth → 0 ≤ y → y < s.tileHeight →
        (image.pixel (s.margin + s.offsetX + col * (s.tileWidth + s.spacing) + x)
          (s.margin + s.offsetY + row * (s.tileHeight + s.spacing) + y)).a = 0 := by
  simp only [extractTileCanvas]
  rw [hasContent_drawImageRect]
  push_neg
  constructor
  · intro h x y hx0 hxw hy0 hyh
    have hz := h x y hx0 hxw hy0 hyh
    omega
  · intro h x y hx0 hxw hy0 hyh
    have hz := h x y hx0 hxw hy0 hyh
    omega

/-! ## Claim C9 -/

/-- C9: an extracted tile is flagged empty exactly when every pixel of its
source rectangle has alpha 0, both with trimming enabled and with it
disabled; a tile containing a pixel of positive alpha is never flagged
empty on either path. -/
theorem extractTile_isEmpty_iff :
    ∀ (image : Canvas) (s : TileSettings) (row col : Int),
      ((extractTile image { s with trimTransparent := true } row col).isEmpty = true ↔
        (∀ x y, 0 ≤ x → x < s.tileWidth → 0 ≤ y → y < s.tileHeight →
          (image.pixel (s.margin + s.offsetX + col * (s.tileWidth + s.spacing) + x)
            (s.margin + s.offsetY + row * (s.tileHeight + s.spacing) + y)).a = 0)) ∧
      ((extractTile image { s with trimTransparent := false } row col).isEmpty = true ↔
        (∀ x y, 0 ≤ x → x < s.tileWidth → 0 ≤ y → y < s.tileHeight →
          (image.pixel (s.margin + s.offsetX + col * (s.tileWidth + s.spacing) + x)
            (s.margin + s.offsetY + row * (s.tileHeight + s.spacing) + y)).a = 0)) := by
  intro image s row col
  constructor
  · have h1 : (extractTile image { s with trimTransparent := true } row col).isEmpty
        = (trimTransparentEdges
            (extractTileCanvas image { s with trimTransparent := true } row col)
            s.preservePadding).isEmpty := rfl
    rw [h1, trimTransparentEdges_isEmpty_iff,
      not_hasContent_extractTileCanvas image { s with trimTransparent := true } row col]
  · have h2 : (extractTile image { s with trimTransparent := false } row col).isEmpty
        = isCanvasEmpty (extractTileCanvas image { s with trimTransparent := false } row col) := rfl
    rw [h2, isCanvasEmpty_iff_not_hasContent,
      not_hasContent_extractTileCanvas image { s with trimTransparent := false } row col]

/-! ## Claim C4 -/

/-- C4: the index of an extracted tile is row * cols + col where cols is
recomputed inside extractTile from the full image width and the settings
(the caller-supplied GridInfo is not consulted: extractTile does not even
receive it), and the concrete 64-by-64 scenario with 32-pixel tiles yields
row-major indices 0, 1, 2, 3. -/
theorem extractTile_index_recomputed :
    ∀ (image : Canvas) (s : TileSettings) (row col : Int),
      0 < s.tileWidth → 0 < s.tileWidth + s.spacing →
      ((extractTile image s row col).index
        = row * Int.fdiv (image.width - s.margin * 2 - s.offsetX + s.spacing)
            (s.tileWidth + s.spacing) + col) ∧
      ((sliceSprite img64 s32 (calculateGrid s32 ⟨64, 64, true⟩)).map
          (fun t => (t.row, t.col, t.index))
        = [(0, 0, 0), (0, 1, 1), (1, 0, 2), (1, 1, 3)]) := by
  intro image s row col htw _
  constructor
  · have h : (extractTile image s row col).index
        = row * (if 0 < s.tileWidth then
            Int.fdiv (image.width - s.margin * 2 - s.offsetX + s.spacing)
              (s.tileWidth + s.spacing)
          else 1) + col := rfl
    rw [h, if_pos htw]
  · decide

/-- C4 instantiated at the 64-by-64 scenario, tile (0,1). -/
theorem extractTile_index_recomputed_witness :
    0 < s32.tileWidth ∧ 0 < s32.tileWidth + s32.spacing ∧
    (extractTile img64 s32 0 1).index
      = 0 * Int.fdiv (img64.width - s32.margin * 2 - s32.offsetX + s32.spacing)
          (s32.tileWidth + s32.spacing) + 1 :=
  ⟨by decide, by decide,
    (extractTile_index_recomputed img64 s32 0 1 (by decide) (by decide)).1⟩

/-! ## Claim C7 -/

/-- calculateGrid on an evenly divided raster with no margin, spacing or
offsets returns exactly the dividing row and column counts. -/
theorem calculateGrid_even (tw th rows cols pad : Int) (ha trim : Bool)
    (htw : 0 < tw) (hth : 0 < th) (hrows : 0 ≤ rows) (hcols : 0 ≤ cols) :
    calculateGrid ⟨tw, th, 0, 0, 0, 0, trim, pad⟩ ⟨cols * tw, rows * th, ha⟩
      = ⟨rows, cols, rows * cols⟩ := by
  simp only [calculateGrid]
  have e1 : cols * tw - 0 * 2 - 0 + 0 = cols * tw := by ring
  have e2 : rows * th - 0 * 2 - 0 + 0 = rows * th := by ring
  have e3 : tw + 0 = tw := add_zero tw
  have e4 : th + 0 = th := add_zero th
  rw [e1, e2, e3, e4, Int.mul_fdiv_cancel _ (ne_of_gt htw), Int.mul_fdiv_cancel _ (ne_of_gt hth),
    max_eq_right hrows, max_eq_right hcols, max_eq_right (mul_nonneg hrows hcols)]

/-- Number of tiles produced by sliceSprite. -/
theorem sliceSprite_length (image : Canvas) (s : TileSettings) (g : GridInfo) :
    (sliceSprite image s g).length = g.rows.toNat * g.cols.toNat := by
  unfold sliceSprite
  exact length_flatMap_range_map _ _ _

/-- The tile stored at row-major position i * cols + j of the slice output
is the tile extracted for cell (i, j). -/
theorem sliceSprite_getD (image : Canvas) (s : TileSettings) (g : GridInfo)
    (i j : Nat) (hi : i < g.rows.toNat) (hj : j < g.cols.toNat) (d : TileData) :
    (sliceSprite image s g).getD (i * g.cols.toNat + j) d
      = extractTile image s (i : Int) (j : Int) := by
  unfold sliceSprite
  exact getD_flatMap_range_map _ d _ _ i j hi hj

/-- C7: slicing an evenly divided raster with zero margin, spacing and
offsets and no trimming yields exactly rows * cols tiles, and reading every
pixel back through the reassembly of those tiles at their grid positions
reproduces the original raster pixel for pixel. -/
theorem sliceSprite_roundTrip :
    ∀ (img : Canvas) (tw th rows cols pad : Int) (ha : Bool),
      0 < tw → 0 < th → 0 ≤ rows → 0 ≤ cols →
      img.width = cols * tw → img.height = rows * th →
      (((sliceSprite img ⟨tw, th, 0, 0, 0, 0, false, pad⟩
          (calculateGrid ⟨tw, th, 0, 0, 0, 0, false, pad⟩ ⟨img.width, img.height, ha⟩)).length : Int)
          = rows * cols) ∧
      (∀ x y, 0 ≤ x → x < img.width → 0 ≤ y → y < img.height →
        reassemble (sliceSprite img ⟨tw, th, 0, 0, 0, 0, false, pad⟩
            (calculateGrid ⟨tw, th, 0, 0, 0, 0, false, pad⟩ ⟨img.width, img.height, ha⟩))
          tw th cols x y = img.pixel x y) := by
  intro img tw th rows cols pad ha htw hth hrows hcols hw hh
  have hgrid : calculateGrid ⟨tw, th, 0, 0, 0, 0, false, pad⟩ ⟨img.width, img.height, ha⟩
      = ⟨rows, cols, rows * cols⟩ := by
    rw [hw, hh]
    exact calculateGrid_even tw th rows cols pad ha false htw hth hrows hcols
  rw [hgrid]
  have htw' : tw ≠ 0 := ne_of_gt htw
  have hth' : th ≠ 0 := ne_of_gt hth
  constructor
  · rw [sliceSprite_length]
    dsimp only
    rw [Nat.cast_mul, Int.toNat_of_nonneg hrows, Int.toNat_of_nonneg hcols]
  · intro x y hx0 hxw hy0 hyh
    simp only [reassemble]
    have hfx : Int.fdiv x tw = x / tw := Int.fdiv_eq_ediv x (le_of_lt htw)
    have hfy : Int.fdiv y th = y / th := Int.fdiv_eq_ediv y (le_of_lt hth)
    have hcol0 : 0 ≤ x / tw := Int.ediv_nonneg hx0 (le_of_lt htw)
    have hrow0 : 0 ≤ y / th := Int.ediv_nonneg hy0 (le_of_lt hth)
    have hcolc : x / tw < cols := Int.ediv_lt_of_lt_mul htw (by rw [← hw]; exact hxw)
    have hrowr : y / th < rows := Int.ediv_lt_of_lt_mul hth (by rw [← hh]; exact hyh)
    have hmodx := Int.emod_nonneg x htw'
    have hmodx2 := Int.emod_lt_of_pos x htw
    have hmdefx := Int.emod_def x tw
    have hmody := Int.emod_nonneg y hth'
    have hmody2 := Int.emod_lt_of_pos y hth
    have hmdefy := Int.emod_def y th
    have hdx0 : 0 ≤ x - x / tw * tw := by
      have e : x - x / tw * tw = x % tw := by rw [hmdefx]; ring
      rw [e]
      exact hmodx
    have hdxw : x - x / tw * tw < tw := by
      have e : x - x / tw * tw = x % tw := by rw [hmdefx]; ring
      rw [e]
      exact hmodx2
    have hdy0 : 0 ≤ y - y / th * th := by
      have e : y - y / th * th = y % th := by rw [hmdefy]; ring
      rw [e]
      exact hmody
    have hdyh : y - y / th * th < th := by
      have e : y - y / th * th = y % th := by rw [hmdefy]; ring
      rw [e]
      exact hmody2
    have hidx : Int.fdiv y th * cols + Int.fdiv x tw
        = (((y / th).toNat * cols.toNat + (x / tw).toNat : Nat) : Int) := by
      rw [hfx, hfy]
      push_cast
      rw [Int.toNat_of_nonneg hrow0, Int.toNat_of_nonneg hcol0, Int.toNat_of_nonneg hcols]
    rw [hidx, Int.toNat_natCast]
    rw [sliceSprite_getD img ⟨tw, th, 0, 0, 0, 0, false, pad⟩ ⟨rows, cols, rows * cols⟩
      (y / th).toNat (x / tw).toNat (by dsimp only; omega) (by dsimp only; omega) dummyTile]
    rw [Int.toNat_of_nonneg hrow0, Int.toNat_of_nonneg hcol0]
    have hcanvas : (extractTile img ⟨tw, th, 0, 0, 0, 0, false, pad⟩ (y / th) (x / tw)).canvas
        = extractTileCanvas img ⟨tw, th, 0, 0, 0, 0, false, pad⟩ (y / th) (x / tw) := rfl
    rw [hcanvas]
    simp only [extractTileCanvas]
    rw [hfx, hfy]
    rw [drawImageRect_pixel_of_inBounds img _ _ _ _ _ _ hdx0 hdxw hdy0 hdyh]
    have ex : (0 : Int) + 0 + x / tw * (tw + 0) + (x - x / tw * tw) = x := by ring
    have ey : (0 : Int) + 0 + y / th * (th + 0) + (y - y / th * th) = y := by ring
    rw [ex, ey]

/-- C7 instantiated at a 4-by-4 raster with coordinate-encoding pixels cut
into 2-by-2 tiles. -/
theorem sliceSprite_roundTrip_witness :
    (0 : Int) < 2 ∧ (0 : Int) ≤ 2 ∧ img4.width = 2 * 2 ∧ img4.height = 2 * 2 ∧
    (((sliceSprite img4 ⟨2, 2, 0, 0, 0, 0, false, 0⟩
        (calculateGrid ⟨2, 2, 0, 0, 0, 0, false, 0⟩ ⟨img4.width, img4.height, true⟩)).length : Int)
      = 2 * 2) ∧
    (∀ x y, 0 ≤ x → x < img4.width → 0 ≤ y → y < img4.height →
      reassemble (sliceSprite img4 ⟨2, 2, 0, 0, 0, 0, false, 0⟩
          (calculateGrid ⟨2, 2, 0, 0, 0, 0, false, 0⟩ ⟨img4.width, img4.height, true⟩))
        2 2 2 x y = img4.pixel x y) :=
  ⟨by decide, by decide, by decide, by decide,
    (sliceSprite_roundTrip img4 2 2 2 2 0 true (by decide) (by decide) (by decide) (by decide)
      (by decide) (by decide)).1,
    (sliceSprite_roundTrip img4 2 2 2 2 0 true (by decide) (by decide) (by decide) (by decide)
      (by decide) (by decide)).2⟩

/-! ## Claim C2 -/

/-- Characterization of the internal grid-line indices. -/
theorem mem_internalLines {n k : Int} : k ∈ internalLines n ↔ 1 ≤ k ∧ k < n := by
  simp only [internalLines, List.mem_map, List.mem_range]
  constructor
  · rintro ⟨i, hi, rfl⟩
    constructor <;> omega
  · rintro ⟨h1, h2⟩
    refine ⟨(k - 1).toNat, by omega, by omega⟩

/-- The consistentVertical counter counts the consistent internal vertical
lines once every internal line is known to lie inside the image. -/
theorem countConsistentVertical_eq (img : Canvas) (tw cols : Int)
    (h : ∀ col ∈ internalLines cols, col * tw < img.width) :
    countConsistentVertical img tw cols
      = (((internalLines cols).filter (fun col => lineConsistentV img (col * tw))).length : Int) := by
  simp only [countConsistentVertical]
  rw [foldl_guard_count (fun col => col * tw < img.width)
    (fun col => lineConsistentV img (col * tw)) (internalLines cols) 0 h, zero_add]

/-- The consistentHorizontal counter counts the consistent internal
horizontal lines once every internal line is known to lie inside the
image. -/
theorem countConsistentHorizontal_eq (img : Canvas) (th rows : Int)
    (h : ∀ row ∈ internalLines rows, row * th < img.height) :
    countConsistentHorizontal img th rows
      = (((internalLines rows).filter (fun row => lineConsistentH img (row * th))).length : Int) := by
  simp only [countConsistentHorizontal]
  rw [foldl_guard_count (fun row => row * th < img.height)
    (fun row => lineConsistentH img (row * th)) (internalLines rows) 0 h, zero_add]

/-- For a positive candidate size the code's detection for that size agrees
with the amended spec-level detection. -/
theorem tryDetectGrid_eq_amended (img : Canvas) (size : Int) (hs : 0 < size) :
    tryDetectGrid img size size = amendedTryDetect img size := by
  have hcolsW : Int.fdiv img.width size * size ≤ img.width := by
    rw [Int.fdiv_eq_ediv _ (le_of_lt hs)]
    exact Int.ediv_mul_le img.width (ne_of_gt hs)
  have hrowsH : Int.fdiv img.height size * size ≤ img.height := by
    rw [Int.fdiv_eq_ediv _ (le_of_lt hs)]
    exact Int.ediv_mul_le img.height (ne_of_gt hs)
  have hv : ∀ col ∈ internalLines (Int.fdiv img.width size), col * size < img.width := by
    intro col hcol
    rw [mem_internalLines] at hcol
    have h1 : col * size < Int.fdiv img.width size * size :=
      Int.mul_lt_mul_of_pos_right hcol.2 hs
    omega
  have hhz : ∀ row ∈ internalLines (Int.fdiv img.height size), row * size < img.height := by
    intro row hrow
    rw [mem_internalLines] at hrow
    have h1 : row * size < Int.fdiv img.height size * size :=
      Int.mul_lt_mul_of_pos_right hrow.2 hs
    omega
  simp only [tryDetectGrid, amendedTryDetect]
  rw [countConsistentVertical_eq img size _ hv, countConsistentHorizontal_eq img size _ hhz]

/-- C2 counterexample: on a fully transparent 32-by-32 raster, candidate
size 16 has exactly one internal vertical and one internal horizontal line,
both consistent, so the claim's acceptance rule (at least 70 percent of the
internal lines) accepts it; the code compares against 70 percent of cols
and rows (0.7 * 2 = 1.4 lines) and rejects every candidate, returning
null. -/
theorem autoDetect_claim_counterexample :
    autoDetectTileSize imgT32 = none ∧
    claimTryDetect imgT32 16 = some ⟨16, 16, 0, 0, 0, 0⟩ ∧
    claimAutoDetect imgT32 = some ⟨16, 16, 0, 0, 0, 0⟩ := by
  decide

/-- C2 amended: auto-detection behaves exactly as the claim words it except
that the acceptance thresholds are 70 percent of cols and of rows (the
divisors in the code), not 70 percent of the internal line counts cols - 1
and rows - 1. -/
theorem autoDetectTileSize_amended :
    ∀ img : Canvas, autoDetectTileSize img = amendedAutoDetect img := by
  intro img
  unfold autoDetectTileSize amendedAutoDetect
  apply findSome?_congr
  intro size hs
  have hpos : 0 < size := by
    simp only [commonSizes, List.mem_cons, List.mem_singleton, List.not_mem_nil, or_false] at hs
    rcases hs with rfl | rfl | rfl | rfl | rfl | rfl | rfl <;> decide
  exact tryDetectGrid_eq_amended img size hpos

/-- C3 instantiated at the 10-by-10 raster with 32-pixel tiles and 20-pixel
margin. -/
theorem validateSettings_spec_witness :
    (validateSettings cexSettings cexMeta = [] ↔ Feasible cexSettings cexMeta) ∧
    (cexMeta.width < cexSettings.margin * 2 + cexSettings.offsetX + cexSettings.tileWidth →
      ("Image width (" ++ toString cexMeta.width ++
        "px) is too small for current settings (requires at least " ++
        toString (cexSettings.margin * 2 + cexSettings.offsetX + cexSettings.tileWidth) ++
        "px)") ∈ validateSettings cexSettings cexMeta) :=
  ⟨(validateSettings_spec cexSettings cexMeta).1,
    (validateSettings_spec cexSettings cexMeta).2.2.2.2.2.2.2.1⟩

/-- C5 instantiated at the 4-by-4 raster with 2-by-2 tiles. -/
theorem extractTile_copies_rectangle_witness :
    (extractTileCanvas img4 s2 0 1).width = s2.tileWidth ∧
    (extractTileCanvas img4 s2 0 1).height = s2.tileHeight :=
  ⟨(extractTile_copies_rectangle img4 s2 0 1).1,
    (extractTile_copies_rectangle img4 s2 0 1).2.1⟩

/-- C9 instantiated at the 4-by-4 raster with 2-by-2 tiles, tile (0, 0),
trimming enabled. -/
theorem extractTile_isEmpty_iff_witness :
    (extractTile img4 { s2 with trimTransparent := true } 0 0).isEmpty = true ↔
      (∀ x y, 0 ≤ x → x < s2.tileWidth → 0 ≤ y → y < s2.tileHeight →
        (img4.pixel (s2.margin + s2.offsetX + 0 * (s2.tileWidth + s2.spacing) + x)
          (s2.margin + s2.offsetY + 0 * (s2.tileHeight + s2.spacing) + y)).a = 0) :=
  (extractTile_isEmpty_iff img4 s2 0 0).1
